import Mathlib

/-!
Shallow embedding of `src/script.js` (photo gallery with lightbox viewer).

The script keeps module-level state: the `photos` array (the catalog), the
`currentIndex` number (`-1` while the lightbox is closed, a valid index while
open), and the DOM surface it mutates (`lightbox.hidden`,
`document.body.style.overflow`, `lightboxImage.src`, the image's `loaded`
class, the caption text, and the `visibility` of the prev/next buttons).
We model that state as a record `AppState`, and each function of the script
as a function on `AppState`; a navigation function additionally returns the
list of catalog indexes for which it initiates a full-size preload fetch
(the observable side effect of `preloadAdjacent`).
-/

namespace Selects

/-- A manifest photo record: `filename`, `width`, `height`, `dateCaptured`
(timestamps are parseable into a total order; we model them as integers). -/
structure Photo where
  filename : String
  width : Int
  height : Int
  dateCaptured : Int
deriving Repr, DecidableEq

/-- Full-size resource path: `images/full/${photo.filename}`. -/
def fullSrc (p : Photo) : String := "images/full/" ++ p.filename

/-- Thumbnail resource path: `images/thumbs/${photo.filename}`. -/
def thumbSrc (p : Photo) : String := "images/thumbs/" ++ p.filename

/-- The module-level state of the script plus the DOM fields it mutates.
`lightboxCaption` records the `dateCaptured` the caption text is formatted
from (`formatDate` is a pure function of it). -/
structure AppState where
  photos : List Photo
  currentIndex : Int
  lightboxHidden : Bool
  bodyOverflowHidden : Bool
  lightboxImageSrc : Option String
  lightboxImageLoaded : Bool
  lightboxCaption : Option Int
  prevVisible : Bool
  nextVisible : Bool
deriving Repr, DecidableEq

/-- JS array indexing `ps[i]` with a possibly negative number index:
`undefined` (here `none`) when `i` is outside `[0, ps.length)`. -/
def getPhoto (ps : List Photo) (i : Int) : Option Photo :=
  if 0 ≤ i then ps[i.toNat]? else none

/-- `updateLightboxContent()`: looks up `photos[currentIndex]`; if undefined,
returns with no change.  Otherwise removes the `loaded` class, sets the
full-size `src`, the caption, and recomputes the prev/next button
visibility (`currentIndex > 0`, `currentIndex < photos.length - 1`). -/
def updateLightboxContent (s : AppState) : AppState :=
  match getPhoto s.photos s.currentIndex with
  | none => s
  | some photo =>
    { s with
      lightboxImageLoaded := false
      lightboxImageSrc := some (fullSrc photo)
      lightboxCaption := some photo.dateCaptured
      prevVisible := decide (s.currentIndex > 0)
      nextVisible := decide (s.currentIndex < (s.photos.length : Int) - 1) }

/-- `preloadAdjacent()`: of the two indexes `currentIndex - 1` and
`currentIndex + 1`, those inside `[0, photos.length)`; for each, the script
creates an `Image` whose `src` is the full-size path of that photo,
initiating a fetch.  We return the list of indexes fetched. -/
def preloadAdjacent (s : AppState) : List Int :=
  [s.currentIndex - 1, s.currentIndex + 1].filter
    (fun index => decide (0 ≤ index) && decide (index < (s.photos.length : Int)))

/-- `openLightbox(index)`: sets `currentIndex`, updates the lightbox content,
unhides the lightbox, disables page scroll, then preloads adjacent images. -/
def openLightbox (index : Int) (s : AppState) : AppState × List Int :=
  let s1 := updateLightboxContent { s with currentIndex := index }
  let s2 := { s1 with lightboxHidden := false, bodyOverflowHidden := true }
  (s2, preloadAdjacent s2)

/-- `closeLightbox()`: hides the lightbox, restores page scroll, resets
`currentIndex` to `-1`, and removes the image's `loaded` class. -/
def closeLightbox (s : AppState) : AppState :=
  { s with
    lightboxHidden := true
    bodyOverflowHidden := false
    currentIndex := -1
    lightboxImageLoaded := false }

/-- `prevPhoto()`: only when `currentIndex > 0`, decrement, update content,
preload adjacent; otherwise nothing happens. -/
def prevPhoto (s : AppState) : AppState × List Int :=
  if s.currentIndex > 0 then
    let s1 := updateLightboxContent { s with currentIndex := s.currentIndex - 1 }
    (s1, preloadAdjacent s1)
  else (s, [])

/-- `nextPhoto()`: only when `currentIndex < photos.length - 1`, increment,
update content, preload adjacent; otherwise nothing happens. -/
def nextPhoto (s : AppState) : AppState × List Int :=
  if s.currentIndex < (s.photos.length : Int) - 1 then
    let s1 := updateLightboxContent { s with currentIndex := s.currentIndex + 1 }
    (s1, preloadAdjacent s1)
  else (s, [])

/-- The two swipe commands `handleSwipe` can emit. -/
inductive SwipeCommand
  | nextCmd
  | prevCmd
deriving Repr, DecidableEq

/-- `handleSwipe()`: with `diff = touchStartX - touchEndX`, if
`Math.abs(diff) > 50` call `nextPhoto` when `diff > 0`, else `prevPhoto`;
below or at the threshold, nothing. -/
def handleSwipe (touchStartX touchEndX : Int) : Option SwipeCommand :=
  let threshold : Int := 50
  let diff := touchStartX - touchEndX
  if |diff| > threshold then
    if diff > 0 then some SwipeCommand.nextCmd else some SwipeCommand.prevCmd
  else
    none

/-- The document-level `keydown` handler: ignores everything while
`lightbox.hidden`; otherwise Escape closes, ArrowLeft goes to the previous
photo, ArrowRight to the next, and any other key does nothing. -/
def keydownHandler (key : String) (s : AppState) : AppState × List Int :=
  if s.lightboxHidden then (s, [])
  else if key = "Escape" then (closeLightbox s, [])
  else if key = "ArrowLeft" then prevPhoto s
  else if key = "ArrowRight" then nextPhoto s
  else (s, [])

/-- Stable insert for a descending-by-`dateCaptured` sort: `p` passes over
the entries strictly newer than it and lands before the first entry that is
not newer (so before entries of equal date that come later in the input). -/
def insertByDate (p : Photo) : List Photo → List Photo
  | [] => [p]
  | q :: qs =>
    if q.dateCaptured > p.dateCaptured then q :: insertByDate p qs
    else p :: q :: qs

/-- `photos.sort((a, b) => new Date(b.dateCaptured) - new Date(a.dateCaptured))`:
a stable sort (ECMAScript `Array.prototype.sort` is stable) by capture date
descending, modelled as a stable insertion sort. -/
def sortPhotos : List Photo → List Photo
  | [] => []
  | p :: rest => insertByDate p (sortPhotos rest)

/-- The catalog construction in `init()`:
`photos = manifest.photos || []` followed by the date sort.  `none` models a
manifest without a `photos` field. -/
def initCatalog (manifestPhotos : Option (List Photo)) : List Photo :=
  sortPhotos (manifestPhotos.getD [])

/-- What `createGalleryItem(photo, index)` contributes to the rendered grid:
a clickable item carrying its catalog index (its click and keyboard handlers
invoke `openLightbox(index)`) and the thumbnail resource path. -/
structure GalleryItem where
  index : Nat
  thumb : String
deriving Repr, DecidableEq

/-- The rendered gallery surface: either the empty-state element or the list
of thumbnail items. -/
inductive GalleryView
  | emptyState
  | grid (items : List GalleryItem)
deriving Repr, DecidableEq

/-- `createGalleryItem` as a value of `GalleryItem`. -/
def createGalleryItem (photo : Photo) (index : Nat) : GalleryItem :=
  { index := index, thumb := thumbSrc photo }

/-- `renderGallery()`: the empty-state element when the catalog is empty,
otherwise one gallery item per photo at its index. -/
def renderGallery (photos : List Photo) : GalleryView :=
  if photos.length = 0 then GalleryView.emptyState
  else GalleryView.grid ((photos.enum).map (fun x => createGalleryItem x.2 x.1))

/-- The script's initial state: empty catalog until `init` assigns it (we
parameterize by the loaded catalog), `currentIndex = -1`, lightbox hidden,
page scroll enabled, no image loaded. -/
def initialState (ps : List Photo) : AppState :=
  { photos := ps
    currentIndex := -1
    lightboxHidden := true
    bodyOverflowHidden := false
    lightboxImageSrc := none
    lightboxImageLoaded := false
    lightboxCaption := none
    prevVisible := true
    nextVisible := true }

/-- States reachable through the public command surface: `openLightbox i`
only for an index `i` of a rendered thumbnail (so `i < ps.length`), and
`nextPhoto`, `prevPhoto`, `closeLightbox` from any reachable state (an
over-approximation of the pointer, keyboard, and swipe dispatch paths). -/
inductive Reachable (ps : List Photo) : AppState → Prop
  | start : Reachable ps (initialState ps)
  | openThumb (i : Nat) (hi : i < ps.length) (s : AppState) :
      Reachable ps s → Reachable ps (openLightbox i s).1
  | next (s : AppState) : Reachable ps s → Reachable ps (nextPhoto s).1
  | prev (s : AppState) : Reachable ps s → Reachable ps (prevPhoto s).1
  | close (s : AppState) : Reachable ps s → Reachable ps (closeLightbox s)

/-! ### Basic lemmas about the operations -/

theorem updateLightboxContent_currentIndex (s : AppState) :
    (updateLightboxContent s).currentIndex = s.currentIndex := by
  unfold updateLightboxContent
  cases getPhoto s.photos s.currentIndex <;> rfl

theorem updateLightboxContent_photos (s : AppState) :
    (updateLightboxContent s).photos = s.photos := by
  unfold updateLightboxContent
  cases getPhoto s.photos s.currentIndex <;> rfl

theorem getPhoto_eq_some (ps : List Photo) (i : Int) (h0 : 0 ≤ i)
    (h1 : i < (ps.length : Int)) : ∃ p, getPhoto ps i = some p := by
  have hlt : i.toNat < ps.length := by omega
  exact ⟨ps[i.toNat], by simp [getPhoto, if_pos h0, List.getElem?_eq_getElem hlt]⟩

theorem nextPhoto_of_lt (s : AppState)
    (hc : s.currentIndex < (s.photos.length : Int) - 1) :
    nextPhoto s =
      (updateLightboxContent { s with currentIndex := s.currentIndex + 1 },
       preloadAdjacent
         (updateLightboxContent { s with currentIndex := s.currentIndex + 1 })) := by
  unfold nextPhoto
  rw [if_pos hc]

theorem nextPhoto_of_not_lt (s : AppState)
    (hc : ¬ s.currentIndex < (s.photos.length : Int) - 1) :
    nextPhoto s = (s, []) := by
  unfold nextPhoto
  rw [if_neg hc]

theorem prevPhoto_of_pos (s : AppState) (hc : s.currentIndex > 0) :
    prevPhoto s =
      (updateLightboxContent { s with currentIndex := s.currentIndex - 1 },
       preloadAdjacent
         (updateLightboxContent { s with currentIndex := s.currentIndex - 1 })) := by
  unfold prevPhoto
  rw [if_pos hc]

theorem prevPhoto_of_not_pos (s : AppState) (hc : ¬ s.currentIndex > 0) :
    prevPhoto s = (s, []) := by
  unfold prevPhoto
  rw [if_neg hc]

/-! ### Concrete fixtures used by the witnesses -/

/-- A concrete photo record. -/
def pA : Photo :=
  { filename := "a.jpg", width := 3, height := 2, dateCaptured := 20240101 }

/-- A concrete photo record. -/
def pB : Photo :=
  { filename := "b.jpg", width := 4, height := 3, dateCaptured := 20230101 }

/-- A concrete two-photo catalog. -/
def demoCatalog : List Photo := [pA, pB]

/-- The state after opening the lightbox at index `i` on the demo catalog. -/
def demoOpenAt (i : Int) : AppState :=
  (openLightbox i (initialState demoCatalog)).1

/-! ### C1 -/

/-- C1: from `OpenAt(i)` with `i < size - 1`, `nextPhoto` moves to index
`i + 1` performing the open-style side effects (content and affordance
update via `updateLightboxContent`, adjacent preload); at `i = size - 1` it
returns the state unchanged and emits no preload. -/
theorem c1_next_step_and_boundary (s : AppState) :
    (0 ≤ s.currentIndex → s.currentIndex < (s.photos.length : Int) - 1 →
      nextPhoto s =
        (updateLightboxContent { s with currentIndex := s.currentIndex + 1 },
         preloadAdjacent
           (updateLightboxContent { s with currentIndex := s.currentIndex + 1 })) ∧
      (nextPhoto s).1.currentIndex = s.currentIndex + 1) ∧
    (s.currentIndex = (s.photos.length : Int) - 1 → nextPhoto s = (s, [])) := by
  constructor
  · intro _ h1
    refine ⟨nextPhoto_of_lt s h1, ?_⟩
    rw [nextPhoto_of_lt s h1]
    rw [updateLightboxContent_currentIndex]
  · intro h
    exact nextPhoto_of_not_lt s (by omega)

/-- Witness for C1 on the demo catalog: a step from index 0 and the silent
boundary at index 1 (= size − 1). -/
theorem c1_witness :
    (nextPhoto (demoOpenAt 0)).1.currentIndex = (demoOpenAt 0).currentIndex + 1 ∧
    nextPhoto (demoOpenAt 1) = (demoOpenAt 1, []) :=
  ⟨((c1_next_step_and_boundary (demoOpenAt 0)).1 (by decide) (by decide)).2,
   (c1_next_step_and_boundary (demoOpenAt 1)).2 (by decide)⟩

/-! ### C2 -/

/-- C2: from `OpenAt(i)` with `i > 0`, `prevPhoto` moves to index `i - 1`
performing the content-update and preload side effects; at `i = 0` it
returns the state unchanged and emits no preload. -/
theorem c2_prev_step_and_boundary (s : AppState) :
    (s.currentIndex > 0 →
      prevPhoto s =
        (updateLightboxContent { s with currentIndex := s.currentIndex - 1 },
         preloadAdjacent
           (updateLightboxContent { s with currentIndex := s.currentIndex - 1 })) ∧
      (prevPhoto s).1.currentIndex = s.currentIndex - 1) ∧
    (s.currentIndex = 0 → prevPhoto s = (s, [])) := by
  constructor
  · intro h1
    refine ⟨prevPhoto_of_pos s h1, ?_⟩
    rw [prevPhoto_of_pos s h1]
    rw [updateLightboxContent_currentIndex]
  · intro h
    exact prevPhoto_of_not_pos s (by omega)

/-- Witness for C2 on the demo catalog: a step from index 1 and the silent
boundary at index 0. -/
theorem c2_witness :
    (prevPhoto (demoOpenAt 1)).1.currentIndex = (demoOpenAt 1).currentIndex - 1 ∧
    prevPhoto (demoOpenAt 0) = (demoOpenAt 0, []) :=
  ⟨((c2_prev_step_and_boundary (demoOpenAt 1)).1 (by decide)).2,
   (c2_prev_step_and_boundary (demoOpenAt 0)).2 (by decide)⟩

/-! ### C3 -/

/-- The navigation-affordance invariant: while the state carries a valid
open index, the previous control is visible exactly when the index is
positive and the next control exactly when the index is below the last. -/
def affordancesOK (s : AppState) : Prop :=
  0 ≤ s.currentIndex → s.currentIndex < (s.photos.length : Int) →
    ((s.prevVisible = true ↔ 0 < s.currentIndex) ∧
     (s.nextVisible = true ↔ s.currentIndex < (s.photos.length : Int) - 1))

theorem affordancesOK_updateLightboxContent (s : AppState) :
    affordancesOK (updateLightboxContent s) := by
  unfold affordancesOK
  rw [updateLightboxContent_currentIndex, updateLightboxContent_photos]
  intro h0 h1
  obtain ⟨p, hp⟩ := getPhoto_eq_some s.photos s.currentIndex h0 h1
  unfold updateLightboxContent
  rw [hp]
  constructor
  · simp
  · simp

/-- C3: the affordance pair is recomputed on every transition into an open
index — `openLightbox` establishes the invariant outright, and `nextPhoto`
and `prevPhoto` preserve it (recomputing it whenever they change the
index). -/
theorem c3_affordance_invariant (s : AppState) (i : Int) :
    affordancesOK (openLightbox i s).1 ∧
    (affordancesOK s → affordancesOK (nextPhoto s).1) ∧
    (affordancesOK s → affordancesOK (prevPhoto s).1) := by
  refine ⟨?_, ?_, ?_⟩
  · exact affordancesOK_updateLightboxContent { s with currentIndex := i }
  · intro hA
    by_cases hc : s.currentIndex < (s.photos.length : Int) - 1
    · rw [nextPhoto_of_lt s hc]
      exact affordancesOK_updateLightboxContent _
    · rw [nextPhoto_of_not_lt s hc]
      exact hA
  · intro hA
    by_cases hc : s.currentIndex > 0
    · rw [prevPhoto_of_pos s hc]
      exact affordancesOK_updateLightboxContent _
    · rw [prevPhoto_of_not_pos s hc]
      exact hA

/-- Witness for C3: opening the demo catalog at index 1 (the last of two)
yields a visible previous control and a hidden next control. -/
theorem c3_witness :
    ((demoOpenAt 1).prevVisible = true ↔ (0 : Int) < (demoOpenAt 1).currentIndex) ∧
    ((demoOpenAt 1).nextVisible = true ↔
      (demoOpenAt 1).currentIndex < ((demoOpenAt 1).photos.length : Int) - 1) :=
  (c3_affordance_invariant (initialState demoCatalog) 1).1 (by decide) (by decide)

/-! ### C4 -/

/-- C4: for a valid index `i`, `openLightbox i` followed by `closeLightbox`
returns the state to Closed (`currentIndex = -1`, lightbox hidden); and from
any state, `closeLightbox` hides the lightbox, restores page scroll, resets
the index, and drops the `loaded` marker of the shown full-size image (the
release step `lightboxImage.classList.remove('loaded')`). -/
theorem c4_open_close_roundtrip (s : AppState) (i : Int) :
    (0 ≤ i → i < (s.photos.length : Int) →
      (closeLightbox (openLightbox i s).1).currentIndex = -1 ∧
      (closeLightbox (openLightbox i s).1).lightboxHidden = true) ∧
    ((closeLightbox s).lightboxHidden = true ∧
     (closeLightbox s).bodyOverflowHidden = false ∧
     (closeLightbox s).currentIndex = -1 ∧
     (closeLightbox s).lightboxImageLoaded = false) :=
  ⟨fun _ _ => ⟨rfl, rfl⟩, rfl, rfl, rfl, rfl⟩

/-- Witness for C4: open at index 0 of the demo catalog, then close. -/
theorem c4_witness :
    (closeLightbox (openLightbox 0 (initialState demoCatalog)).1).currentIndex = -1 ∧
    (closeLightbox (openLightbox 0 (initialState demoCatalog)).1).lightboxHidden = true :=
  (c4_open_close_roundtrip (initialState demoCatalog) 0).1 (by decide) (by decide)

/-! ### C5 -/

/-- C5: the preload step fetches exactly the members of
`{currentIndex - 1, currentIndex + 1}` that lie inside `[0, photos.length)`
— never the focal index itself, and never more than two resources. -/
theorem c5_preload_adjacent (s : AppState) :
    (∀ j : Int, j ∈ preloadAdjacent s ↔
      ((j = s.currentIndex - 1 ∨ j = s.currentIndex + 1) ∧
        0 ≤ j ∧ j < (s.photos.length : Int))) ∧
    s.currentIndex ∉ preloadAdjacent s ∧
    (preloadAdjacent s).length ≤ 2 := by
  have hmem : ∀ j : Int, j ∈ preloadAdjacent s ↔
      ((j = s.currentIndex - 1 ∨ j = s.currentIndex + 1) ∧
        0 ≤ j ∧ j < (s.photos.length : Int)) := by
    intro j
    simp [preloadAdjacent, List.mem_filter]
  refine ⟨hmem, ?_, ?_⟩
  · intro hc
    have := (hmem s.currentIndex).mp hc
    omega
  · have := List.length_filter_le
      (fun index => decide (0 ≤ index) && decide (index < (s.photos.length : Int)))
      [s.currentIndex - 1, s.currentIndex + 1]
    simpa [preloadAdjacent] using this

/-- Witness for C5: open at the last index of the demo catalog; the only
preload is index 0 — in particular 0 is fetched and 1 itself is not. -/
theorem c5_witness :
    ((0 : Int) ∈ preloadAdjacent (demoOpenAt 1) ↔
      (((0 : Int) = (demoOpenAt 1).currentIndex - 1 ∨
        (0 : Int) = (demoOpenAt 1).currentIndex + 1) ∧
        (0 : Int) ≤ 0 ∧ (0 : Int) < ((demoOpenAt 1).photos.length : Int))) ∧
    (preloadAdjacent (demoOpenAt 1)).length ≤ 2 :=
  ⟨(c5_preload_adjacent (demoOpenAt 1)).1 0, (c5_preload_adjacent (demoOpenAt 1)).2.2⟩

/-! ### C6 -/

/-- C6: with displacement `diff = touchStartX - touchEndX`, a magnitude
beyond the fixed threshold 50 emits the next command when `diff` is
positive and the previous command when it is negative; a magnitude of at
most 50 emits nothing. -/
theorem c6_swipe_classification (a b : Int) :
    (|a - b| > 50 → a - b > 0 → handleSwipe a b = some SwipeCommand.nextCmd) ∧
    (|a - b| > 50 → a - b < 0 → handleSwipe a b = some SwipeCommand.prevCmd) ∧
    (|a - b| ≤ 50 → handleSwipe a b = none) := by
  refine ⟨fun h1 h2 => ?_, fun h1 h2 => ?_, fun h1 => ?_⟩
  · simp only [handleSwipe]
    rw [if_pos h1, if_pos h2]
  · simp only [handleSwipe]
    rw [if_pos h1, if_neg (by omega)]
  · simp only [handleSwipe]
    rw [if_neg (not_lt.mpr h1)]

/-- Witness for C6: the three concrete scenarios of the spec —
`200 → 140` swipes next, `140 → 200` swipes previous, `100 → 120` is below
threshold and emits nothing. -/
theorem c6_witness :
    handleSwipe 200 140 = some SwipeCommand.nextCmd ∧
    handleSwipe 140 200 = some SwipeCommand.prevCmd ∧
    handleSwipe 100 120 = none :=
  ⟨(c6_swipe_classification 200 140).1 (by decide) (by decide),
   (c6_swipe_classification 140 200).2.1 (by decide) (by decide),
   (c6_swipe_classification 100 120).2.2 (by decide)⟩

/-! ### C7 -/

theorem mem_insertByDate {x p : Photo} {l : List Photo} :
    x ∈ insertByDate p l ↔ x = p ∨ x ∈ l := by
  induction l with
  | nil => simp [insertByDate]
  | cons q qs ih =>
    by_cases hq : q.dateCaptured > p.dateCaptured
    · simp only [insertByDate, if_pos hq, List.mem_cons, ih]
      tauto
    · simp only [insertByDate, if_neg hq, List.mem_cons]

theorem pairwise_insertByDate (p : Photo) (l : List Photo)
    (h : l.Pairwise (fun a b => b.dateCaptured ≤ a.dateCaptured)) :
    (insertByDate p l).Pairwise (fun a b => b.dateCaptured ≤ a.dateCaptured) := by
  induction l with
  | nil => simp [insertByDate]
  | cons q qs ih =>
    rw [List.pairwise_cons] at h
    obtain ⟨hq, hqs⟩ := h
    by_cases hgt : q.dateCaptured > p.dateCaptured
    · rw [insertByDate, if_pos hgt, List.pairwise_cons]
      refine ⟨?_, ih hqs⟩
      intro x hx
      rcases mem_insertByDate.mp hx with rfl | hx1
      · omega
      · exact hq x hx1
    · rw [insertByDate, if_neg hgt, List.pairwise_cons]
      refine ⟨?_, List.pairwise_cons.mpr ⟨hq, hqs⟩⟩
      intro x hx
      rcases List.mem_cons.mp hx with rfl | hx1
      · omega
      · have := hq x hx1
        omega

theorem filter_insertByDate_eq (p : Photo) (l : List Photo) (d : Int)
    (hd : p.dateCaptured = d) :
    (insertByDate p l).filter (fun q => decide (q.dateCaptured = d)) =
      p :: l.filter (fun q => decide (q.dateCaptured = d)) := by
  induction l with
  | nil => simp [insertByDate, hd]
  | cons q qs ih =>
    by_cases hgt : q.dateCaptured > p.dateCaptured
    · have hq : ¬ q.dateCaptured = d := by omega
      rw [insertByDate, if_pos hgt]
      simp only [List.filter_cons, decide_eq_true_eq, hq, if_false, ih]
    · rw [insertByDate, if_neg hgt]
      simp [List.filter_cons, hd]

theorem filter_insertByDate_ne (p : Photo) (l : List Photo) (d : Int)
    (hd : ¬ p.dateCaptured = d) :
    (insertByDate p l).filter (fun q => decide (q.dateCaptured = d)) =
      l.filter (fun q => decide (q.dateCaptured = d)) := by
  induction l with
  | nil => simp [insertByDate, hd]
  | cons q qs ih =>
    by_cases hgt : q.dateCaptured > p.dateCaptured
    · rw [insertByDate, if_pos hgt]
      simp only [List.filter_cons, ih]
    · rw [insertByDate, if_neg hgt]
      simp [List.filter_cons, hd]

theorem sortPhotos_pairwise (l : List Photo) :
    (sortPhotos l).Pairwise (fun a b => b.dateCaptured ≤ a.dateCaptured) := by
  induction l with
  | nil => simp [sortPhotos]
  | cons p rest ih => exact pairwise_insertByDate p (sortPhotos rest) ih

theorem sortPhotos_filter (l : List Photo) (d : Int) :
    (sortPhotos l).filter (fun q => decide (q.dateCaptured = d)) =
      l.filter (fun q => decide (q.dateCaptured = d)) := by
  induction l with
  | nil => rfl
  | cons p rest ih =>
    by_cases hd : p.dateCaptured = d
    · rw [sortPhotos, filter_insertByDate_eq p (sortPhotos rest) d hd, ih]
      simp [List.filter_cons, hd]
    · rw [sortPhotos, filter_insertByDate_ne p (sortPhotos rest) d hd, ih]
      simp [List.filter_cons, hd]

/-- C7: the catalog built at load time from the manifest entry list is
sorted by `dateCaptured` descending, and the sort is stable: for any date
`d`, the entries of date `d` appear in the catalog exactly in their
manifest input order. -/
theorem c7_catalog_sorted_stable (l : List Photo) :
    (initCatalog (some l)).Pairwise (fun a b => b.dateCaptured ≤ a.dateCaptured) ∧
    ∀ d : Int, (initCatalog (some l)).filter (fun q => decide (q.dateCaptured = d)) =
      l.filter (fun q => decide (q.dateCaptured = d)) :=
  ⟨sortPhotos_pairwise l, fun d => sortPhotos_filter l d⟩

/-! ### C8 -/

theorem updateSet_currentIndex (s : AppState) (j : Int) :
    (updateLightboxContent { s with currentIndex := j }).currentIndex = j :=
  updateLightboxContent_currentIndex _

theorem updateSet_photos (s : AppState) (j : Int) :
    (updateLightboxContent { s with currentIndex := j }).photos = s.photos :=
  updateLightboxContent_photos _

theorem openLightbox_fst_currentIndex (i : Int) (s : AppState) :
    (openLightbox i s).1.currentIndex = i :=
  updateSet_currentIndex s i

theorem openLightbox_fst_photos (i : Int) (s : AppState) :
    (openLightbox i s).1.photos = s.photos :=
  updateSet_photos s i

theorem reachable_state_inv (ps : List Photo) (s : AppState) (h : Reachable ps s) :
    s.photos = ps ∧
    (s.currentIndex = -1 ∨
      (0 ≤ s.currentIndex ∧ s.currentIndex < (ps.length : Int))) := by
  induction h with
  | start => exact ⟨rfl, Or.inl rfl⟩
  | openThumb i hi s1 hr ih =>
    refine ⟨?_, Or.inr ⟨?_, ?_⟩⟩
    · rw [openLightbox_fst_photos]
      exact ih.1
    · rw [openLightbox_fst_currentIndex]
      omega
    · rw [openLightbox_fst_currentIndex]
      omega
  | next s1 hr ih =>
    obtain ⟨hp, hidx⟩ := ih
    by_cases hc : s1.currentIndex < (s1.photos.length : Int) - 1
    · rw [nextPhoto_of_lt s1 hc]
      rw [hp] at hc
      refine ⟨?_, Or.inr ⟨?_, ?_⟩⟩
      · rw [updateSet_photos]
        exact hp
      · rw [updateSet_currentIndex]
        omega
      · rw [updateSet_currentIndex]
        omega
    · rw [nextPhoto_of_not_lt s1 hc]
      exact ⟨hp, hidx⟩
  | prev s1 hr ih =>
    obtain ⟨hp, hidx⟩ := ih
    by_cases hc : s1.currentIndex > 0
    · rw [prevPhoto_of_pos s1 hc]
      refine ⟨?_, Or.inr ⟨?_, ?_⟩⟩
      · rw [updateSet_photos]
        exact hp
      · rw [updateSet_currentIndex]
        omega
      · rw [updateSet_currentIndex]
        omega
    · rw [prevPhoto_of_not_pos s1 hc]
      exact ⟨hp, hidx⟩
  | close s1 hr ih => exact ⟨ih.1, Or.inl rfl⟩

/-- C8: every state reachable through the public command surface (open at a
thumbnail index, next, prev, close) is either Closed (`currentIndex = -1`)
or open at an index inside `[0, photos.length)`. -/
theorem c8_reachable_index_in_range (ps : List Photo) (s : AppState)
    (h : Reachable ps s) :
    s.currentIndex = -1 ∨
      (0 ≤ s.currentIndex ∧ s.currentIndex < (s.photos.length : Int)) := by
  obtain ⟨hp, hidx⟩ := reachable_state_inv ps s h
  rw [hp]
  exact hidx

/-- Witness for C8: the state after opening thumbnail 0 of the demo catalog
and pressing next is in range. -/
theorem c8_witness :
    (nextPhoto (openLightbox ((0 : Nat) : Int) (initialState demoCatalog)).1).1.currentIndex = -1 ∨
    (0 ≤ (nextPhoto (openLightbox ((0 : Nat) : Int) (initialState demoCatalog)).1).1.currentIndex ∧
      (nextPhoto (openLightbox ((0 : Nat) : Int) (initialState demoCatalog)).1).1.currentIndex <
        ((nextPhoto (openLightbox ((0 : Nat) : Int) (initialState demoCatalog)).1).1.photos.length : Int)) :=
  c8_reachable_index_in_range demoCatalog _
    (Reachable.next _ (Reachable.openThumb 0 (by decide) _ Reachable.start))

/-! ### C9 -/

theorem reachable_nil_closed (s : AppState) (h : Reachable [] s) :
    s.photos = [] ∧ s.lightboxHidden = true ∧ s.currentIndex = -1 := by
  induction h with
  | start => exact ⟨rfl, rfl, rfl⟩
  | openThumb i hi s1 hr ih => exact absurd hi (by simp)
  | next s1 hr ih =>
    obtain ⟨hp, hh, hi⟩ := ih
    rw [nextPhoto_of_not_lt s1 (by rw [hp, hi]; decide)]
    exact ⟨hp, hh, hi⟩
  | prev s1 hr ih =>
    obtain ⟨hp, hh, hi⟩ := ih
    rw [prevPhoto_of_not_pos s1 (by rw [hi]; decide)]
    exact ⟨hp, hh, hi⟩
  | close s1 hr ih => exact ⟨ih.1, rfl, rfl⟩

/-- C9: a manifest with no `photos` field or an empty `photos` list yields
the empty catalog; on it, the gallery renders the empty-state element, and
no state reachable through the public command surface ever shows the
viewer. -/
theorem c9_empty_manifest :
    initCatalog none = [] ∧
    initCatalog (some []) = [] ∧
    renderGallery [] = GalleryView.emptyState ∧
    ∀ s : AppState, Reachable [] s →
      s.lightboxHidden = true ∧ s.currentIndex = -1 :=
  ⟨rfl, rfl, rfl, fun s h =>
    ⟨(reachable_nil_closed s h).2.1, (reachable_nil_closed s h).2.2⟩⟩

/-- Witness for C9: on the empty catalog, after a close command the viewer
is still hidden and the state Closed. -/
theorem c9_witness :
    (closeLightbox (initialState [])).lightboxHidden = true ∧
    (closeLightbox (initialState [])).currentIndex = -1 :=
  c9_empty_manifest.2.2.2 (closeLightbox (initialState []))
    (Reachable.close _ Reachable.start)

/-! ### C10 -/

/-- C10: `nextPhoto` itself never checks that the viewer is open — from the
Closed state (`currentIndex = -1`) on a non-empty catalog it is not a no-op:
it moves to index 0, runs the content update (setting the full-size `src`
of the first catalog photo), and only the `keydown` handler's
`lightbox.hidden` guard suppresses this path at runtime. -/
theorem c10_next_from_closed (s : AppState) (h1 : s.currentIndex = -1)
    (h2 : s.photos ≠ []) :
    (nextPhoto s).1.currentIndex = 0 ∧
    nextPhoto s =
      (updateLightboxContent { s with currentIndex := 0 },
       preloadAdjacent (updateLightboxContent { s with currentIndex := 0 })) ∧
    (∀ p rest, s.photos = p :: rest →
      (nextPhoto s).1.lightboxImageSrc = some (fullSrc p)) ∧
    (s.lightboxHidden = true → keydownHandler "ArrowRight" s = (s, [])) := by
  have hlen : 0 < s.photos.length := List.length_pos.mpr h2
  have hc : s.currentIndex < (s.photos.length : Int) - 1 := by omega
  have hrec : ({ s with currentIndex := s.currentIndex + 1 } : AppState) =
      { s with currentIndex := 0 } := by
    rw [h1]
    norm_num
  have hstep : nextPhoto s =
      (updateLightboxContent { s with currentIndex := 0 },
       preloadAdjacent (updateLightboxContent { s with currentIndex := 0 })) := by
    rw [nextPhoto_of_lt s hc, hrec]
  refine ⟨?_, hstep, ?_, ?_⟩
  · rw [hstep]
    exact updateSet_currentIndex s 0
  · intro p rest hps
    rw [hstep]
    have hget : getPhoto ({ s with currentIndex := 0 } : AppState).photos
        ({ s with currentIndex := 0 } : AppState).currentIndex = some p := by
      simp [getPhoto, hps]
    unfold updateLightboxContent
    rw [hget]
  · intro hh
    unfold keydownHandler
    rw [if_pos hh]

/-- Witness for C10: on the demo catalog in its initial Closed state,
`nextPhoto` opens photo 0 and the hidden-lightbox keyboard guard holds. -/
theorem c10_witness :
    (nextPhoto (initialState demoCatalog)).1.currentIndex = 0 ∧
    keydownHandler "ArrowRight" (initialState demoCatalog) =
      (initialState demoCatalog, []) :=
  ⟨(c10_next_from_closed (initialState demoCatalog) (by decide) (by decide)).1,
   (c10_next_from_closed (initialState demoCatalog) (by decide)
      (by decide)).2.2.2 (by decide)⟩

end Selects
